import Mathlib

/-!
# BrokenMons battle engine: verification of the battle-resolution core

Shallow embedding of the combat engine of `BrokemonBattle.py`: the status
model, the damage and effect resolver (`compute_damage`, `perform_move`),
end-of-turn status processing (`apply_end_of_turn`), the VGC doubles action
ordering, the statistics updater (`update_stats`) and the switch-in energy
grant.  Curses rendering, animation pacing and file I/O are dropped; the
random draws of the resolver (variance, critical-hit roll, full-paralysis
roll) become explicit parameters; Python floats are modelled by exact
rational arithmetic and Python's `int(...)` truncation by `pyTrunc`.
-/

namespace BrokenMons

/-- Python `int(q)`: truncation of a real toward zero. -/
def pyTrunc (q : ℚ) : ℤ :=
  if 0 ≤ q then ⌊q⌋ else ⌈q⌉

/-- The `status` dict of a `Pokemon`.  Each Python dict key becomes an
`Option` field (`none` = key absent).  The five stat-modifier kinds each
keep a turn counter and a separate `*_amt` accumulated amount (the `_amt`
suffix convention of the source); `poison` and `burn` hold a
`(dmg, turns)` record and `paralysis` a `turns` record. -/
structure Status where
  def_down : Option ℤ := none
  def_down_amt : Option ℤ := none
  def_up : Option ℤ := none
  def_up_amt : Option ℤ := none
  spd_up : Option ℤ := none
  spd_up_amt : Option ℤ := none
  spd_down : Option ℤ := none
  spd_down_amt : Option ℤ := none
  atk_up : Option ℤ := none
  atk_up_amt : Option ℤ := none
  poison : Option (ℤ × ℤ) := none
  burn : Option (ℤ × ℤ) := none
  paralysis : Option ℤ := none
  deriving Repr, DecidableEq

/-- The mutable battle state of one combatant (dataclass `Pokemon`). -/
structure Pokemon where
  name : String
  lvl : ℤ
  max_hp : ℤ
  atk : ℤ
  dfns : ℤ
  spd : ℤ
  energy_max : ℤ
  hp : ℤ
  energy : ℤ
  status : Status
  deriving Repr, DecidableEq

/-- `def_lower`: stacking add of defense-down turns and amount. -/
def def_lower (pokemon : Pokemon) (amount turns : ℤ) : Pokemon :=
  { pokemon with status :=
    { pokemon.status with
      def_down := some (pokemon.status.def_down.getD 0 + turns)
      def_down_amt := some (pokemon.status.def_down_amt.getD 0 + amount) } }

/-- `def_boost`: stacking add of defense-up turns and amount. -/
def def_boost (pokemon : Pokemon) (amount turns : ℤ) : Pokemon :=
  { pokemon with status :=
    { pokemon.status with
      def_up := some (pokemon.status.def_up.getD 0 + turns)
      def_up_amt := some (pokemon.status.def_up_amt.getD 0 + amount) } }

/-- `speed_boost`: positive amounts stack `spd_up`, non-positive amounts
stack `spd_down` with the absolute value of the amount. -/
def speed_boost (pokemon : Pokemon) (amount turns : ℤ) : Pokemon :=
  if 0 < amount then
    { pokemon with status :=
      { pokemon.status with
        spd_up := some (pokemon.status.spd_up.getD 0 + turns)
        spd_up_amt := some (pokemon.status.spd_up_amt.getD 0 + amount) } }
  else
    { pokemon with status :=
      { pokemon.status with
        spd_down := some (pokemon.status.spd_down.getD 0 + turns)
        spd_down_amt := some (pokemon.status.spd_down_amt.getD 0 + |amount|) } }

/-- `atk_boost`: stacking add of attack-up turns and amount. -/
def atk_boost (pokemon : Pokemon) (amount turns : ℤ) : Pokemon :=
  { pokemon with status :=
    { pokemon.status with
      atk_up := some (pokemon.status.atk_up.getD 0 + turns)
      atk_up_amt := some (pokemon.status.atk_up_amt.getD 0 + amount) } }

/-- `apply_poison`: `target.status['poison'] = {'dmg': d, 'turns': t}` —
the entry is overwritten, not accumulated. -/
def apply_poison (target : Pokemon) (dmg_per_turn turns : ℤ) : Pokemon :=
  { target with status := { target.status with poison := some (dmg_per_turn, turns) } }

/-- `apply_paralysis`: overwrites the paralysis entry. -/
def apply_paralysis (target : Pokemon) (turns : ℤ) : Pokemon :=
  { target with status := { target.status with paralysis := some turns } }

/-- `apply_burn`: overwrites the burn entry. -/
def apply_burn (target : Pokemon) (dmg_per_turn turns : ℤ) : Pokemon :=
  { target with status := { target.status with burn := some (dmg_per_turn, turns) } }

/-- `heal`: raises HP, capped at `max_hp`. -/
def heal (pokemon : Pokemon) (amount : ℤ) : Pokemon :=
  { pokemon with hp := min pokemon.max_hp (pokemon.hp + amount) }

/-- `int(target.max_hp * (percent / 100))` of `deal_percent_max_hp`. -/
def percentDmg (maxhp percent : ℤ) : ℤ :=
  pyTrunc ((maxhp : ℚ) * ((percent : ℚ) / 100))

/-- `deal_percent_max_hp`: percent-of-max-HP damage, HP floored at 0. -/
def deal_percent_max_hp (target : Pokemon) (percent : ℤ) : Pokemon :=
  { target with hp := max 0 (target.hp - percentDmg target.max_hp percent) }

/-- Which combatant a move's effect hook acts on: the acting combatant
(`atk_p` in the source lambdas) or the move's target (`def_p`). -/
inductive Target where
  | user
  | foe
  deriving Repr, DecidableEq

/-- The move effect hooks.  Every move of the roster attaches a lambda
that directly calls one of the effect functions (the `*Fx` variants
below, with their lambda's target); `doubleHitFx` and `bonusDamageFx`
are the lambdas that merely call `double_hit_if_faster` /
`bonus_damage_if_hp_above` and return its number.  The `tuple*` variants
model hooks that return the `("effect_name", ...)` tuples handled in
`perform_move` ("HexaBreak special effects"); no move of the repository
returns such a tuple, but the handler code exists and is embedded. -/
inductive Effect where
  | defLowerFx (t : Target) (amount turns : ℤ)
  | defBoostFx (t : Target) (amount turns : ℤ)
  | atkBoostFx (t : Target) (amount turns : ℤ)
  | speedBoostFx (t : Target) (amount turns : ℤ)
  | poisonFx (t : Target) (dmg turns : ℤ)
  | burnFx (t : Target) (dmg turns : ℤ)
  | paralysisFx (t : Target) (turns : ℤ)
  | healFx (t : Target) (amount : ℤ)
  | percentMaxHpFx (t : Target) (percent : ℤ)
  | doubleHitFx
  | bonusDamageFx (threshold : ℤ)
  | tupleDefLower (t : Target) (amount turns : ℤ)
  | tuplePercentMaxHp (percent : ℤ)
  | tupleDoubleHit
  | tupleBonusDamage (threshold : ℤ)
  deriving Repr, DecidableEq

/-- Dataclass `Move` (the `description` string is dropped). -/
structure Move where
  name : String
  power : ℤ
  energy_cost : ℤ
  category : String
  effect : Option Effect := none
  deriving Repr, DecidableEq

/-- Apply a combatant update to the side an effect lambda targets. -/
def applyAt (t : Target) (f : Pokemon → Pokemon) (attacker defender : Pokemon) :
    Pokemon × Pokemon :=
  match t with
  | .user => (f attacker, defender)
  | .foe => (attacker, f defender)

/-- The state change caused by *calling* `move.effect(...)`: the direct
lambdas of the roster mutate their target as a side effect; the
number-returning lambdas and the tuple-returning hooks change nothing at
call time. -/
def runFxCall (fx : Effect) (attacker defender : Pokemon) : Pokemon × Pokemon :=
  match fx with
  | .defLowerFx t amount turns => applyAt t (fun p => def_lower p amount turns) attacker defender
  | .defBoostFx t amount turns => applyAt t (fun p => def_boost p amount turns) attacker defender
  | .atkBoostFx t amount turns => applyAt t (fun p => atk_boost p amount turns) attacker defender
  | .speedBoostFx t amount turns =>
      applyAt t (fun p => speed_boost p amount turns) attacker defender
  | .poisonFx t dmg turns => applyAt t (fun p => apply_poison p dmg turns) attacker defender
  | .burnFx t dmg turns => applyAt t (fun p => apply_burn p dmg turns) attacker defender
  | .paralysisFx t turns => applyAt t (fun p => apply_paralysis p turns) attacker defender
  | .healFx t amount => applyAt t (fun p => heal p amount) attacker defender
  | .percentMaxHpFx t percent =>
      applyAt t (fun p => deal_percent_max_hp p percent) attacker defender
  | _ => (attacker, defender)

/-- `compute_damage`, with the two random draws (the uniform variance in
[0.85, 1.15] and the 7% critical roll) passed in as parameters.  Returns
the `(dmg, crit)` pair of the source. -/
def compute_damage (attacker defender : Pokemon) (move : Move) (variance : ℚ)
    (critRoll : Bool) : ℤ × Bool :=
  if move.power ≤ 0 then (0, false)
  else
    let defEff0 : ℤ :=
      if 0 < defender.status.def_down.getD 0 then
        max 1 (defender.dfns - defender.status.def_down_amt.getD 0)
      else defender.dfns
    let defEff : ℤ :=
      if 0 < defender.status.def_up.getD 0 then
        defEff0 + defender.status.def_up_amt.getD 0
      else defEff0
    let atkEff : ℤ :=
      attacker.atk +
        (if 0 < attacker.status.atk_up.getD 0 then attacker.status.atk_up_amt.getD 0 else 0)
    let ratio : ℚ := (atkEff : ℚ) / (max 1 defEff : ℤ)
    let raw : ℚ :=
      (move.power : ℚ) * ratio * (1 + ((attacker.lvl - defender.lvl : ℤ) : ℚ) * (5 / 1000))
    let dmg : ℤ := pyTrunc (max 1 (raw * variance))
    if critRoll then (pyTrunc ((dmg : ℚ) * (18 / 10)), true) else (dmg, false)

/-- The random draws one `perform_move` call may consume: the full-paralysis
roll (`random.random() < 0.25`), the variance and crit rolls of the main
`compute_damage` call, and the rolls of the extra `compute_damage` call of
the double-hit handling. -/
structure Rolls where
  fullParalyze : Bool
  variance : ℚ
  crit : Bool
  variance2 : ℚ
  crit2 : Bool
  deriving Repr

/-- `perform_move`: the resolution of one chosen move, returning the
updated `(attacker, defender)` pair.  Message construction, animation and
rendering are dropped; `animate_hp_drain`'s net state change is
`target.hp = max(0, target.hp - damage)`. -/
def perform_move (rolls : Rolls) (attacker defender : Pokemon) (move : Move) :
    Pokemon × Pokemon :=
  let cancelled : Bool :=
    match attacker.status.paralysis with
    | some t => decide (0 < t) && rolls.fullParalyze
    | none => false
  if cancelled then (attacker, defender)
  else if attacker.energy < move.energy_cost then (attacker, defender)
  else
    let attacker := { attacker with energy := max 0 (attacker.energy - move.energy_cost) }
    if move.category = "status" then
      match move.effect with
      | none => (attacker, defender)
      | some fx =>
        let ad := runFxCall fx attacker defender
        match fx with
        | .tupleDefLower t amount turns =>
            applyAt t (fun p => def_lower p amount turns) ad.1 ad.2
        | .tuplePercentMaxHp percent => (ad.1, deal_percent_max_hp ad.2 percent)
        | _ => ad
    else
      let dc := compute_damage attacker defender move rolls.variance rolls.crit
      let add : Pokemon × Pokemon × ℤ :=
        match move.effect with
        | none => (attacker, defender, dc.1)
        | some fx =>
          let ad := runFxCall fx attacker defender
          match fx with
          | .tupleDoubleHit =>
              if defender.spd < attacker.spd then
                let extra := (compute_damage ad.1 ad.2 move rolls.variance2 rolls.crit2).1
                (ad.1, { ad.2 with hp := max 0 (ad.2.hp - extra) }, dc.1 + extra)
              else (ad.1, ad.2, dc.1)
          | .tupleBonusDamage threshold =>
              if (threshold : ℚ) ≤ (ad.2.hp : ℚ) / (ad.2.max_hp : ℚ) * 100 then
                (ad.1, ad.2, dc.1 * 2)
              else (ad.1, ad.2, dc.1)
          | .tuplePercentMaxHp percent => (ad.1, deal_percent_max_hp ad.2 percent, 0)
          | _ => (ad.1, ad.2, dc.1)
      let d :=
        if 0 < add.2.2 then { add.2.1 with hp := max 0 (add.2.1.hp - add.2.2) }
        else add.2.1
      (add.1, d)

/-- One turn counter's end-of-turn step for a stat-modifier kind: the key
is decremented when present, and key and `_amt` companion are both removed
when the decremented value is `≤ 0`. -/
def tickTurn (turn amt : Option ℤ) : Option ℤ × Option ℤ :=
  match turn with
  | none => (none, amt)
  | some t => if t - 1 ≤ 0 then (none, none) else (some (t - 1), amt)

/-- The poison paragraph of `apply_end_of_turn`: when a poison entry with
`turns > 0` is present, subtract its damage from HP (floored at 0),
decrement its counter and drop the entry when the counter reaches `≤ 0`. -/
def tickPoison (poke : Pokemon) : Pokemon :=
  match poke.status.poison with
  | some (dmg, t) =>
      if 0 < t then
        { poke with
          hp := max 0 (poke.hp - dmg)
          status :=
            { poke.status with poison := if t - 1 ≤ 0 then none else some (dmg, t - 1) } }
      else poke
  | none => poke

/-- The burn paragraph of `apply_end_of_turn`, identical to poison. -/
def tickBurn (poke : Pokemon) : Pokemon :=
  match poke.status.burn with
  | some (dmg, t) =>
      if 0 < t then
        { poke with
          hp := max 0 (poke.hp - dmg)
          status :=
            { poke.status with burn := if t - 1 ≤ 0 then none else some (dmg, t - 1) } }
      else poke
  | none => poke

/-- The stat-modifier decrement loop of `apply_end_of_turn`, covering the
five integer turn counters and their `_amt` companions. -/
def tickMods (poke : Pokemon) : Pokemon :=
  let dd := tickTurn poke.status.def_down poke.status.def_down_amt
  let du := tickTurn poke.status.def_up poke.status.def_up_amt
  let su := tickTurn poke.status.spd_up poke.status.spd_up_amt
  let sd := tickTurn poke.status.spd_down poke.status.spd_down_amt
  let au := tickTurn poke.status.atk_up poke.status.atk_up_amt
  { poke with status :=
    { poke.status with
      def_down := dd.1, def_down_amt := dd.2
      def_up := du.1, def_up_amt := du.2
      spd_up := su.1, spd_up_amt := su.2
      spd_down := sd.1, spd_down_amt := sd.2
      atk_up := au.1, atk_up_amt := au.2 } }

/-- The paralysis paragraph of `apply_end_of_turn`: entries with
`turns > 0` are decremented and removed at `≤ 0` (no damage). -/
def tickPara (poke : Pokemon) : Pokemon :=
  match poke.status.paralysis with
  | some t =>
      if 0 < t then
        { poke with status :=
          { poke.status with paralysis := if t - 1 ≤ 0 then none else some (t - 1) } }
      else poke
  | none => poke

/-- `apply_end_of_turn`: poison then burn damage with their counter
decrements, then the stat-modifier decrements, then paralysis.  Fainted
combatants are skipped entirely. -/
def apply_end_of_turn (poke : Pokemon) : Pokemon :=
  if poke.hp ≤ 0 then poke
  else tickPara (tickMods (tickBurn (tickPoison poke)))

/-- The energy regain update shared by the end-of-turn regeneration
(`+3`), the pass action (`+5`) and the switch-in grant (`+8`):
`p.energy = min(p.energy_max, p.energy + n)`. -/
def regainEnergy (pokemon : Pokemon) (n : ℤ) : Pokemon :=
  { pokemon with energy := min pokemon.energy_max (pokemon.energy + n) }

/-- The switch action of `battle_pvp` / `battle_1v3`: the newly active
combatant (index `i`) gains 8 energy capped at its maximum; nothing else
changes. -/
def switchInBoost (team : List Pokemon) (i : ℕ) : List Pokemon :=
  match team[i]? with
  | some p => team.set i (regainEnergy p 8)
  | none => team

/-- One per-combatant record of the statistics store; `matchesPlayed`
embeds the `"matches"` field (`matches` is a reserved word in Lean). -/
structure BattleRecord where
  wins : ℤ
  losses : ℤ
  matchesPlayed : ℤ
  win_percentage : ℚ
  deriving Repr, DecidableEq

/-- Python `round(q, 2)` (modelled as rounding half up to two decimals;
the claims compare the stored percentage against the very same rounding,
so the tie-breaking convention is never observable). -/
def round2 (q : ℚ) : ℚ :=
  ((⌊q * 100 + 1 / 2⌋ : ℤ) : ℚ) / 100

/-- The statistics store: an insertion-ordered dict from combatant name
to record. -/
abbrev Stats : Type := List (String × BattleRecord)

/-- The `if name not in stats: stats[name] = {...0...}` step. -/
def ensureEntry (stats : Stats) (nm : String) : Stats :=
  if (List.any stats fun e => e.1 == nm) then stats else stats ++ [(nm, ⟨0, 0, 0, 0⟩)]

/-- Update the record stored under one name. -/
def adjustEntry (stats : Stats) (nm : String) (f : BattleRecord → BattleRecord) : Stats :=
  List.map (fun e => if e.1 == nm then (e.1, f e.2) else e) stats

/-- `wins += 1; matches += 1`. -/
def bumpWin (r : BattleRecord) : BattleRecord :=
  { r with wins := r.wins + 1, matchesPlayed := r.matchesPlayed + 1 }

/-- `losses += 1; matches += 1`. -/
def bumpLoss (r : BattleRecord) : BattleRecord :=
  { r with losses := r.losses + 1, matchesPlayed := r.matchesPlayed + 1 }

/-- The recomputation of `win_percentage` done for every stored record. -/
def recomputePct (r : BattleRecord) : BattleRecord :=
  { r with win_percentage :=
      if 0 < r.matchesPlayed then round2 ((r.wins : ℚ) / (r.matchesPlayed : ℚ) * 100)
      else 0 }

/-- `update_stats`: create-if-missing and bump the winner's and loser's
records, then recompute `win_percentage` for every stored record. -/
def update_stats (stats : Stats) (winner loser : String) : Stats :=
  let s1 := adjustEntry (ensureEntry stats winner) winner bumpWin
  let s2 := adjustEntry (ensureEntry s1 loser) loser bumpLoss
  List.map (fun e => (e.1, recomputePct e.2)) s2

/-- One queued doubles action; only the acting combatant matters for the
resolution order (`all_actions.sort(key=lambda x: x['pokemon'].spd,
reverse=True)`). -/
structure VGCAction where
  pokemon : Pokemon
  deriving Repr, DecidableEq

/-- Insert an action into an already-ordered action list, before the
first action whose speed is at most the new one's, so that an
earlier-collected action stays ahead of later equal-speed actions. -/
def insertBySpeed (x : VGCAction) : List VGCAction → List VGCAction
  | [] => [x]
  | y :: ys =>
      if y.pokemon.spd ≤ x.pokemon.spd then x :: y :: ys else y :: insertBySpeed x ys

/-- Stable descending-by-speed sort, the semantics of Python's stable
`list.sort(key=lambda x: x['pokemon'].spd, reverse=True)`: the result is
ordered by descending speed and equal-speed actions keep their original
relative order. -/
def sortBySpeedDesc : List VGCAction → List VGCAction
  | [] => []
  | x :: xs => insertBySpeed x (sortBySpeedDesc xs)

/-- The doubles resolution order of `battle_vgc`: player 1's collected
actions followed by player 2's, sorted stably by descending speed. -/
def resolveOrder (p1_actions p2_actions : List VGCAction) : List VGCAction :=
  sortBySpeedDesc (p1_actions ++ p2_actions)

/-- The spec's damage formula exactly as the claim words it: `def_eff` is
the defense adjusted by the **net** stacked defense-down and defense-up
amounts and then clamped to at least 1. -/
def specDamage (a d : Pokemon) (m : Move) (variance : ℚ) (crit : Bool) : ℤ :=
  let down : ℤ := if 0 < d.status.def_down.getD 0 then d.status.def_down_amt.getD 0 else 0
  let up : ℤ := if 0 < d.status.def_up.getD 0 then d.status.def_up_amt.getD 0 else 0
  let defEff : ℤ := max 1 (d.dfns - down + up)
  let atkEff : ℤ :=
    a.atk + (if 0 < a.status.atk_up.getD 0 then a.status.atk_up_amt.getD 0 else 0)
  let raw : ℚ :=
    (m.power : ℚ) * ((atkEff : ℚ) / ((max 1 defEff : ℤ) : ℚ)) *
      (1 + ((a.lvl - d.lvl : ℤ) : ℚ) * (5 / 1000))
  let dmg : ℤ := ⌊max 1 (raw * variance)⌋
  if crit then ⌊(dmg : ℚ) * (18 / 10)⌋ else dmg

/-- The damage formula as amended: the clamp to 1 is applied to the
defense-down subtraction *before* the defense-up bonus is added, and each
modifier amount counts only while its turn counter is positive. -/
def specDamageAmended (a d : Pokemon) (m : Move) (variance : ℚ) (crit : Bool) : ℤ :=
  let defEff : ℤ :=
    (if 0 < d.status.def_down.getD 0 then max 1 (d.dfns - d.status.def_down_amt.getD 0)
     else d.dfns) +
    (if 0 < d.status.def_up.getD 0 then d.status.def_up_amt.getD 0 else 0)
  let atkEff : ℤ :=
    a.atk + (if 0 < a.status.atk_up.getD 0 then a.status.atk_up_amt.getD 0 else 0)
  let raw : ℚ :=
    (m.power : ℚ) * ((atkEff : ℚ) / ((max 1 defEff : ℤ) : ℚ)) *
      (1 + ((a.lvl - d.lvl : ℤ) : ℚ) * (5 / 1000))
  let dmg : ℤ := ⌊max 1 (raw * variance)⌋
  if crit then ⌊(dmg : ℚ) * (18 / 10)⌋ else dmg

/-- The HP/energy bounds invariant of the spec. -/
def BoundsOK (p : Pokemon) : Prop :=
  0 ≤ p.hp ∧ p.hp ≤ p.max_hp ∧ 0 ≤ p.energy ∧ p.energy ≤ p.energy_max

/-- Non-negativity of the numeric payload an effect hook carries; every
hook attached by the roster satisfies it. -/
def WFEffect : Effect → Prop
  | .healFx _ amount => 0 ≤ amount
  | .percentMaxHpFx _ percent => 0 ≤ percent
  | .tuplePercentMaxHp percent => 0 ≤ percent
  | _ => True

/-- A move with a non-negative energy cost and a well-formed hook; every
move of the roster satisfies it. -/
def WFMove (m : Move) : Prop :=
  0 ≤ m.energy_cost ∧ ∀ fx, m.effect = some fx → WFEffect fx

/-- Non-negative damage-over-time payloads, as every hook of the roster
installs. -/
def WFStatus (s : Status) : Prop :=
  (∀ d t, s.poison = some (d, t) → 0 ≤ d) ∧ (∀ d t, s.burn = some (d, t) → 0 ≤ d)

/-- The per-combatant invariant of the stats store. -/
def StatInv (r : BattleRecord) : Prop :=
  r.wins + r.losses = r.matchesPlayed

/-- Roster entry `cbroman` of `BrokemonBattle.py`, at its battle-start
state (HP and energy at maximum, empty status). -/
def cbroman : Pokemon :=
  { name := "Cbroman", lvl := 104, max_hp := 1758, atk := 1824, dfns := 1102,
    spd := 1387, energy_max := 1406, hp := 1758, energy := 1406, status := {} }

/-- Roster entry `HexaBreak` at its battle-start state. -/
def hexaBreak : Pokemon :=
  { name := "HexaBreak", lvl := 110, max_hp := 1850, atk := 1920, dfns := 1160,
    spd := 1460, energy_max := 1480, hp := 1850, energy := 1480, status := {} }

/-- HexaBreak's move `Overflow Strike`: a damaging move whose hook is the
roster's `lambda ...: deal_percent_max_hp(..., def_p, 36)`. -/
def overflowStrike : Move :=
  { name := "Overflow Strike", power := 180, energy_cost := 85, category := "physical",
    effect := some (.percentMaxHpFx .foe 36) }

/-- A plain 40-power damaging move for the level-equal damage scenario. -/
def scenarioMove : Move :=
  { name := "Scenario", power := 40, energy_cost := 10, category := "physical" }

/-- Deterministic rolls: no full paralysis, variance fixed at 1.0, no
critical hit on either computed hit. -/
def rollsNeutral : Rolls :=
  { fullParalyze := false, variance := 1, crit := false, variance2 := 1, crit2 := false }

/-- A defender whose active defense-down amount exceeds its defense while
a defense-up modifier is also active: the input on which the clamp order
inside the damage formula becomes observable. -/
def clampDefender : Pokemon :=
  { name := "ClampTest", lvl := 50, max_hp := 100, atk := 50, dfns := 3, spd := 10,
    energy_max := 100, hp := 100, energy := 100,
    status := { def_down := some 2, def_down_amt := some 10,
                def_up := some 2, def_up_amt := some 5 } }

/-- The attacker for the clamp-order counterexample. -/
def clampAttacker : Pokemon :=
  { name := "ClampAtk", lvl := 50, max_hp := 100, atk := 100, dfns := 50, spd := 10,
    energy_max := 100, hp := 100, energy := 100, status := {} }

/-- A 10-power move for the clamp-order counterexample. -/
def clampMove : Move :=
  { name := "ClampMove", power := 10, energy_cost := 5, category := "physical" }

/-- A minimal combatant used by the ordering examples: only the speed and
the name matter. -/
def mkAct (nm : String) (s : ℤ) : VGCAction :=
  ⟨{ name := nm, lvl := 1, max_hp := 1, atk := 1, dfns := 1, spd := s,
     energy_max := 1, hp := 1, energy := 1, status := {} }⟩

theorem pyTrunc_eq_floor {q : ℚ} (h : 0 ≤ q) : pyTrunc q = ⌊q⌋ := by
  simp [pyTrunc, h]

theorem one_le_pyTrunc {q : ℚ} (h : 1 ≤ q) : 1 ≤ pyTrunc q := by
  rw [pyTrunc, if_pos (le_trans zero_le_one h)]
  exact Int.le_floor.mpr (by exact_mod_cast h)

theorem pyTrunc_nonneg {q : ℚ} (h : 0 ≤ q) : 0 ≤ pyTrunc q := by
  rw [pyTrunc, if_pos h]
  exact Int.le_floor.mpr (by exact_mod_cast h)

theorem one_le_compute_damage (a d : Pokemon) (m : Move) (v : ℚ) (c : Bool)
    (h : 0 < m.power) : 1 ≤ (compute_damage a d m v c).1 := by
  have hcrit : ∀ x : ℚ, 1 ≤ pyTrunc ((pyTrunc (max 1 x) : ℤ) * (18 / 10 : ℚ)) := by
    intro x
    apply one_le_pyTrunc
    have h1 : (1 : ℤ) ≤ pyTrunc (max 1 x) := one_le_pyTrunc (le_max_left 1 x)
    have h2 : (1 : ℚ) ≤ ((pyTrunc (max 1 x) : ℤ) : ℚ) := by exact_mod_cast h1
    nlinarith
  simp only [compute_damage, if_neg (not_le.mpr h)]
  cases c
  · simpa using one_le_pyTrunc (le_max_left 1 _)
  · simpa using hcrit _

theorem compute_damage_nonneg (a d : Pokemon) (m : Move) (v : ℚ) (c : Bool) :
    0 ≤ (compute_damage a d m v c).1 := by
  by_cases h : 0 < m.power
  · exact le_trans zero_le_one (one_le_compute_damage a d m v c h)
  · simp [compute_damage, not_lt.mp h]

/-- C7.  A damaging resolution never computes less than 1 damage: for a
move with positive power, `compute_damage` returns at least 1 whatever
the variance and critical rolls, and a move with zero power always
computes 0 damage. -/
theorem min_damage_law (a d : Pokemon) (m : Move) (v : ℚ) (c : Bool) :
    (0 < m.power → 1 ≤ (compute_damage a d m v c).1) ∧
    (m.power = 0 → (compute_damage a d m v c).1 = 0) := by
  constructor
  · exact one_le_compute_damage a d m v c
  · intro h0
    simp [compute_damage, h0]

theorem min_damage_law_witness :
    1 ≤ (compute_damage cbroman cbroman scenarioMove 1 false).1 ∧
    (compute_damage cbroman cbroman { scenarioMove with power := 0 } 1 false).1 = 0 :=
  ⟨(min_damage_law cbroman cbroman scenarioMove 1 false).1 (by norm_num [scenarioMove]),
   (min_damage_law cbroman cbroman { scenarioMove with power := 0 } 1 false).2 rfl⟩

/-- C3.  When the attempted move's energy cost exceeds the attacker's
current energy, `perform_move` changes neither combatant: no HP, energy
or status field moves. -/
theorem energy_gate_no_op (rolls : Rolls) (attacker defender : Pokemon) (move : Move)
    (h : attacker.energy < move.energy_cost) :
    perform_move rolls attacker defender move = (attacker, defender) := by
  rw [perform_move]
  split
  · rfl
  · rfl

theorem energy_gate_no_op_witness :
    perform_move rollsNeutral { cbroman with energy := 50 } hexaBreak
        { scenarioMove with energy_cost := 80 } =
      ({ cbroman with energy := 50 }, hexaBreak) :=
  energy_gate_no_op rollsNeutral { cbroman with energy := 50 } hexaBreak
    { scenarioMove with energy_cost := 80 } (by norm_num [cbroman, scenarioMove])

/-- C10.  The switch action's only state change is the +8 energy grant,
capped at the maximum, on the newly active combatant: every other
combatant and every other field of the switched-in combatant is
untouched. -/
theorem switch_grants_energy_only (team : List Pokemon) (i : ℕ) (p : Pokemon)
    (h : team[i]? = some p) :
    (switchInBoost team i)[i]? =
      some { p with energy := min p.energy_max (p.energy + 8) } ∧
    (∀ j, j ≠ i → (switchInBoost team i)[j]? = team[j]?) ∧
    (switchInBoost team i).length = team.length := by
  have hi : i < team.length := by
    by_contra hge
    rw [List.getElem?_eq_none (not_lt.mp hge)] at h
    exact Option.noConfusion h
  refine ⟨?_, ?_, ?_⟩
  · rw [switchInBoost, h]
    simp [List.getElem?_set_self, hi, regainEnergy]
  · intro j hj
    rw [switchInBoost, h]
    simp [List.getElem?_set_ne (fun hq => hj hq.symm)]
  · rw [switchInBoost, h, List.length_set]

theorem statInv_ensureEntry (stats : Stats) (nm : String)
    (h : ∀ e ∈ stats, StatInv e.2) : ∀ e ∈ ensureEntry stats nm, StatInv e.2 := by
  intro e he
  rw [ensureEntry] at he
  split at he
  · exact h e he
  · rcases List.mem_append.mp he with h1 | h1
    · exact h e h1
    · simp only [List.mem_singleton] at h1
      subst h1
      simp [StatInv]

theorem statInv_adjustEntry (stats : Stats) (nm : String) (f : BattleRecord → BattleRecord)
    (hf : ∀ r, StatInv r → StatInv (f r)) (h : ∀ e ∈ stats, StatInv e.2) :
    ∀ e ∈ adjustEntry stats nm f, StatInv e.2 := by
  intro e he
  rw [adjustEntry] at he
  obtain ⟨e0, he0, rfl⟩ := List.mem_map.mp he
  split
  · exact hf _ (h e0 he0)
  · exact h e0 he0

theorem statInv_bumpWin (r : BattleRecord) (h : StatInv r) : StatInv (bumpWin r) := by
  simp only [StatInv, bumpWin] at *
  omega

theorem statInv_bumpLoss (r : BattleRecord) (h : StatInv r) : StatInv (bumpLoss r) := by
  simp only [StatInv, bumpLoss] at *
  omega

/-- C8.  `update_stats` keeps `wins + losses = matches` for every stored
record and leaves every record's `win_percentage` equal to
`round(wins / matches * 100, 2)` when `matches > 0` and `0.0` otherwise. -/
theorem update_stats_law (stats : Stats) (winner loser : String)
    (hinv : ∀ e ∈ stats, StatInv e.2) :
    ∀ e ∈ update_stats stats winner loser,
      StatInv e.2 ∧
      e.2.win_percentage =
        (if 0 < e.2.matchesPlayed
         then round2 ((e.2.wins : ℚ) / (e.2.matchesPlayed : ℚ) * 100) else 0) := by
  have h1 := statInv_ensureEntry stats winner hinv
  have h2 := statInv_adjustEntry _ winner bumpWin statInv_bumpWin h1
  have h3 := statInv_ensureEntry _ loser h2
  have h4 := statInv_adjustEntry _ loser bumpLoss statInv_bumpLoss h3
  intro e he
  rw [update_stats] at he
  obtain ⟨e0, he0, rfl⟩ := List.mem_map.mp he
  have hi := h4 e0 he0
  constructor
  · simpa [StatInv, recomputePct] using hi
  · simp [recomputePct]

theorem update_stats_law_witness :
    StatInv (recomputePct (⟨1, 0, 1, 0⟩ : BattleRecord)) ∧
    (recomputePct (⟨1, 0, 1, 0⟩ : BattleRecord)).win_percentage =
      (if 0 < (recomputePct (⟨1, 0, 1, 0⟩ : BattleRecord)).matchesPlayed
       then round2 (((recomputePct (⟨1, 0, 1, 0⟩ : BattleRecord)).wins : ℚ) /
          ((recomputePct (⟨1, 0, 1, 0⟩ : BattleRecord)).matchesPlayed : ℚ) * 100)
       else 0) := by
  have hmem : ("Cbroman", recomputePct (⟨1, 0, 1, 0⟩ : BattleRecord)) ∈
      update_stats [] "Cbroman" "HexaBreak" := by
    have heval : update_stats [] "Cbroman" "HexaBreak" =
        [("Cbroman", recomputePct (⟨1, 0, 1, 0⟩ : BattleRecord)),
         ("HexaBreak", recomputePct (⟨0, 1, 1, 0⟩ : BattleRecord))] := rfl
    rw [heval]
    exact List.mem_cons_self _ _
  exact update_stats_law [] "Cbroman" "HexaBreak" (by intro e he; simp at he) _ hmem

theorem insertBySpeed_perm (x : VGCAction) (l : List VGCAction) :
    (insertBySpeed x l).Perm (x :: l) := by
  induction l with
  | nil => simp [insertBySpeed]
  | cons y ys ih =>
      rw [insertBySpeed]
      split
      · exact List.Perm.refl _
      · exact (ih.cons y).trans (List.Perm.swap x y ys)

theorem sortBySpeedDesc_perm (l : List VGCAction) : (sortBySpeedDesc l).Perm l := by
  induction l with
  | nil => exact List.Perm.refl _
  | cons x xs ih =>
      rw [sortBySpeedDesc]
      exact (insertBySpeed_perm x _).trans (ih.cons x)

theorem pairwise_insertBySpeed (x : VGCAction) (l : List VGCAction)
    (h : l.Pairwise (fun a b => b.pokemon.spd ≤ a.pokemon.spd)) :
    (insertBySpeed x l).Pairwise (fun a b => b.pokemon.spd ≤ a.pokemon.spd) := by
  induction l with
  | nil => simp [insertBySpeed]
  | cons y ys ih =>
      rw [insertBySpeed]
      rcases List.pairwise_cons.mp h with ⟨hy, hys⟩
      split
      · rename_i hle
        refine List.pairwise_cons.mpr ⟨?_, h⟩
        intro z hz
        rcases List.mem_cons.mp hz with rfl | hz2
        · exact hle
        · exact le_trans (hy z hz2) hle
      · rename_i hgt
        refine List.pairwise_cons.mpr ⟨?_, ih hys⟩
        intro z hz
        have hz2 : z ∈ x :: ys := (insertBySpeed_perm x ys).subset hz
        rcases List.mem_cons.mp hz2 with rfl | hz3
        · exact le_of_lt (not_le.mp hgt)
        · exact hy z hz3

theorem pairwise_sortBySpeedDesc (l : List VGCAction) :
    (sortBySpeedDesc l).Pairwise (fun a b => b.pokemon.spd ≤ a.pokemon.spd) := by
  induction l with
  | nil => simp [sortBySpeedDesc]
  | cons x xs ih => exact pairwise_insertBySpeed x _ ih

/-- C6.  The doubles resolution pass handles exactly the queued actions of
both sides, in descending order of the acting combatant's speed; with the
four distinct speeds 1200/900/1500/300 the pass order is 1500, 1200, 900,
300. -/
theorem vgc_descending_speed_order :
    (∀ p1_actions p2_actions : List VGCAction,
        (resolveOrder p1_actions p2_actions).Perm (p1_actions ++ p2_actions) ∧
        (resolveOrder p1_actions p2_actions).Pairwise
          (fun x y => y.pokemon.spd ≤ x.pokemon.spd)) ∧
    (resolveOrder [mkAct "p1a" 1200, mkAct "p1b" 900]
        [mkAct "p2a" 1500, mkAct "p2b" 300]).map (fun x => x.pokemon.spd) =
      [1500, 1200, 900, 300] := by
  refine ⟨fun p1 p2 => ⟨sortBySpeedDesc_perm _, pairwise_sortBySpeedDesc _⟩, ?_⟩
  rfl

theorem filter_insertBySpeed (x : VGCAction) (l : List VGCAction) (s : ℤ) :
    (insertBySpeed x l).filter (fun a => a.pokemon.spd == s) =
      (if x.pokemon.spd == s
       then x :: l.filter (fun a => a.pokemon.spd == s)
       else l.filter (fun a => a.pokemon.spd == s)) := by
  induction l with
  | nil => rw [insertBySpeed, List.filter_cons, List.filter_nil]
  | cons y ys ih =>
      rw [insertBySpeed]
      split
      · rw [List.filter_cons]
      · rename_i hgt
        rw [List.filter_cons, ih, List.filter_cons]
        have hlt : x.pokemon.spd < y.pokemon.spd := not_le.mp hgt
        by_cases hx : x.pokemon.spd = s <;> by_cases hy : y.pokemon.spd = s
        all_goals simp [hx, hy]
        all_goals omega

theorem filter_sortBySpeedDesc (l : List VGCAction) (s : ℤ) :
    (sortBySpeedDesc l).filter (fun a => a.pokemon.spd == s) =
      l.filter (fun a => a.pokemon.spd == s) := by
  induction l with
  | nil => rfl
  | cons x xs ih =>
      rw [sortBySpeedDesc, filter_insertBySpeed, ih, List.filter_cons]

/-- C9.  Equal-speed actions resolve in collection order (player 1's
slots, then player 2's): the speed ordering is stable, so the resolution
order is a deterministic function of the queued actions and speeds. -/
theorem vgc_tie_break_stable :
    (∀ (p1_actions p2_actions : List VGCAction) (s : ℤ),
        (resolveOrder p1_actions p2_actions).filter (fun a => a.pokemon.spd == s) =
          (p1_actions ++ p2_actions).filter (fun a => a.pokemon.spd == s)) ∧
    (resolveOrder [mkAct "p1slot1" 1000, mkAct "p1slot2" 800]
        [mkAct "p2slot1" 1000, mkAct "p2slot2" 1000]).map (fun a => a.pokemon.name) =
      ["p1slot1", "p2slot1", "p2slot2", "p1slot2"] := by
  refine ⟨fun p1 p2 s => filter_sortBySpeedDesc _ s, ?_⟩
  rfl

theorem tickPoison_burn (q : Pokemon) : (tickPoison q).status.burn = q.status.burn := by
  rw [tickPoison]
  cases hb : q.status.poison with
  | none => rfl
  | some v =>
      obtain ⟨d, t⟩ := v
      dsimp only
      split <;> rfl

theorem tickPoison_paralysis (q : Pokemon) :
    (tickPoison q).status.paralysis = q.status.paralysis := by
  rw [tickPoison]
  cases hb : q.status.poison with
  | none => rfl
  | some v =>
      obtain ⟨d, t⟩ := v
      dsimp only
      split <;> rfl

theorem tickPoison_mods (q : Pokemon) :
    (tickPoison q).status.def_down = q.status.def_down ∧
    (tickPoison q).status.def_down_amt = q.status.def_down_amt ∧
    (tickPoison q).status.def_up = q.status.def_up ∧
    (tickPoison q).status.def_up_amt = q.status.def_up_amt ∧
    (tickPoison q).status.spd_up = q.status.spd_up ∧
    (tickPoison q).status.spd_up_amt = q.status.spd_up_amt ∧
    (tickPoison q).status.spd_down = q.status.spd_down ∧
    (tickPoison q).status.spd_down_amt = q.status.spd_down_amt ∧
    (tickPoison q).status.atk_up = q.status.atk_up ∧
    (tickPoison q).status.atk_up_amt = q.status.atk_up_amt := by
  rw [tickPoison]
  cases hb : q.status.poison with
  | none => exact ⟨rfl, rfl, rfl, rfl, rfl, rfl, rfl, rfl, rfl, rfl⟩
  | some v =>
      obtain ⟨d, t⟩ := v
      dsimp only
      split <;> exact ⟨rfl, rfl, rfl, rfl, rfl, rfl, rfl, rfl, rfl, rfl⟩

theorem tickBurn_poison (q : Pokemon) : (tickBurn q).status.poison = q.status.poison := by
  rw [tickBurn]
  cases hb : q.status.burn with
  | none => rfl
  | some v =>
      obtain ⟨d, t⟩ := v
      dsimp only
      split <;> rfl

theorem tickBurn_paralysis (q : Pokemon) :
    (tickBurn q).status.paralysis = q.status.paralysis := by
  rw [tickBurn]
  cases hb : q.status.burn with
  | none => rfl
  | some v =>
      obtain ⟨d, t⟩ := v
      dsimp only
      split <;> rfl

theorem tickBurn_mods (q : Pokemon) :
    (tickBurn q).status.def_down = q.status.def_down ∧
    (tickBurn q).status.def_down_amt = q.status.def_down_amt ∧
    (tickBurn q).status.def_up = q.status.def_up ∧
    (tickBurn q).status.def_up_amt = q.status.def_up_amt ∧
    (tickBurn q).status.spd_up = q.status.spd_up ∧
    (tickBurn q).status.spd_up_amt = q.status.spd_up_amt ∧
    (tickBurn q).status.spd_down = q.status.spd_down ∧
    (tickBurn q).status.spd_down_amt = q.status.spd_down_amt ∧
    (tickBurn q).status.atk_up = q.status.atk_up ∧
    (tickBurn q).status.atk_up_amt = q.status.atk_up_amt := by
  rw [tickBurn]
  cases hb : q.status.burn with
  | none => exact ⟨rfl, rfl, rfl, rfl, rfl, rfl, rfl, rfl, rfl, rfl⟩
  | some v =>
      obtain ⟨d, t⟩ := v
      dsimp only
      split <;> exact ⟨rfl, rfl, rfl, rfl, rfl, rfl, rfl, rfl, rfl, rfl⟩

theorem tickPara_poison (q : Pokemon) : (tickPara q).status.poison = q.status.poison := by
  rw [tickPara]
  cases hb : q.status.paralysis with
  | none => rfl
  | some t =>
      dsimp only
      split <;> rfl

theorem tickPara_burn (q : Pokemon) : (tickPara q).status.burn = q.status.burn := by
  rw [tickPara]
  cases hb : q.status.paralysis with
  | none => rfl
  | some t =>
      dsimp only
      split <;> rfl

theorem tickPara_mods (q : Pokemon) :
    (tickPara q).status.def_down = q.status.def_down ∧
    (tickPara q).status.def_down_amt = q.status.def_down_amt ∧
    (tickPara q).status.def_up = q.status.def_up ∧
    (tickPara q).status.def_up_amt = q.status.def_up_amt ∧
    (tickPara q).status.spd_up = q.status.spd_up ∧
    (tickPara q).status.spd_up_amt = q.status.spd_up_amt ∧
    (tickPara q).status.spd_down = q.status.spd_down ∧
    (tickPara q).status.spd_down_amt = q.status.spd_down_amt ∧
    (tickPara q).status.atk_up = q.status.atk_up ∧
    (tickPara q).status.atk_up_amt = q.status.atk_up_amt := by
  rw [tickPara]
  cases hb : q.status.paralysis with
  | none => exact ⟨rfl, rfl, rfl, rfl, rfl, rfl, rfl, rfl, rfl, rfl⟩
  | some t =>
      dsimp only
      split <;> exact ⟨rfl, rfl, rfl, rfl, rfl, rfl, rfl, rfl, rfl, rfl⟩

theorem tickTurn_some_fst (t : ℤ) (amt : Option ℤ) :
    (tickTurn (some t) amt).1 = (if 1 < t then some (t - 1) else none) := by
  rw [tickTurn]
  by_cases h1 : 1 < t
  · rw [if_neg (by omega : ¬t - 1 ≤ 0), if_pos h1]
  · rw [if_pos (by omega : t - 1 ≤ 0), if_neg h1]

theorem tickTurn_some_snd (t : ℤ) (amt : Option ℤ) :
    (tickTurn (some t) amt).2 = (if 1 < t then amt else none) := by
  rw [tickTurn]
  by_cases h1 : 1 < t
  · rw [if_neg (by omega : ¬t - 1 ≤ 0), if_pos h1]
  · rw [if_pos (by omega : t - 1 ≤ 0), if_neg h1]

theorem eot_poison_tick (p : Pokemon) (d t : ℤ) (hAlive : 0 < p.hp)
    (h : p.status.poison = some (d, t)) (ht : 0 < t) :
    (apply_end_of_turn p).status.poison = (if 1 < t then some (d, t - 1) else none) := by
  rw [apply_end_of_turn, if_neg (not_le.mpr hAlive), tickPara_poison]
  have hmods : (tickMods (tickBurn (tickPoison p))).status.poison =
      (tickBurn (tickPoison p)).status.poison := rfl
  rw [hmods, tickBurn_poison, tickPoison, h]
  dsimp only
  rw [if_pos ht]
  dsimp only
  by_cases h1 : 1 < t
  · rw [if_neg (by omega : ¬t - 1 ≤ 0), if_pos h1]
  · rw [if_pos (by omega : t - 1 ≤ 0), if_neg h1]

theorem eot_burn_tick (p : Pokemon) (d t : ℤ) (hAlive : 0 < p.hp)
    (h : p.status.burn = some (d, t)) (ht : 0 < t) :
    (apply_end_of_turn p).status.burn = (if 1 < t then some (d, t - 1) else none) := by
  rw [apply_end_of_turn, if_neg (not_le.mpr hAlive), tickPara_burn]
  have hmods : (tickMods (tickBurn (tickPoison p))).status.burn =
      (tickBurn (tickPoison p)).status.burn := rfl
  rw [hmods, tickBurn, tickPoison_burn, h]
  dsimp only
  rw [if_pos ht]
  dsimp only
  by_cases h1 : 1 < t
  · rw [if_neg (by omega : ¬t - 1 ≤ 0), if_pos h1]
  · rw [if_pos (by omega : t - 1 ≤ 0), if_neg h1]

theorem eot_para_tick (p : Pokemon) (t : ℤ) (hAlive : 0 < p.hp)
    (h : p.status.paralysis = some t) (ht : 0 < t) :
    (apply_end_of_turn p).status.paralysis = (if 1 < t then some (t - 1) else none) := by
  rw [apply_end_of_turn, if_neg (not_le.mpr hAlive), tickPara]
  have hq : (tickMods (tickBurn (tickPoison p))).status.paralysis = p.status.paralysis := by
    have h1 : (tickMods (tickBurn (tickPoison p))).status.paralysis =
        (tickBurn (tickPoison p)).status.paralysis := rfl
    rw [h1, tickBurn_paralysis, tickPoison_paralysis]
  rw [hq, h]
  dsimp only
  rw [if_pos ht]
  dsimp only
  by_cases h1 : 1 < t
  · rw [if_neg (by omega : ¬t - 1 ≤ 0), if_pos h1]
  · rw [if_pos (by omega : t - 1 ≤ 0), if_neg h1]

theorem eot_def_down_tick (p : Pokemon) (t : ℤ) (hAlive : 0 < p.hp)
    (h : p.status.def_down = some t) :
    (apply_end_of_turn p).status.def_down = (if 1 < t then some (t - 1) else none) ∧
    (apply_end_of_turn p).status.def_down_amt =
      (if 1 < t then p.status.def_down_amt else none) := by
  rw [apply_end_of_turn, if_neg (not_le.mpr hAlive)]
  obtain ⟨hq1, hq2, _⟩ := tickPara_mods (tickMods (tickBurn (tickPoison p)))
  rw [hq1, hq2]
  have h1 : (tickMods (tickBurn (tickPoison p))).status.def_down =
      (tickTurn (tickBurn (tickPoison p)).status.def_down
        (tickBurn (tickPoison p)).status.def_down_amt).1 := rfl
  have h2 : (tickMods (tickBurn (tickPoison p))).status.def_down_amt =
      (tickTurn (tickBurn (tickPoison p)).status.def_down
        (tickBurn (tickPoison p)).status.def_down_amt).2 := rfl
  obtain ⟨hb1, hb2, _⟩ := tickBurn_mods (tickPoison p)
  obtain ⟨hp1, hp2, _⟩ := tickPoison_mods p
  rw [h1, h2, hb1, hb2, hp1, hp2, h, tickTurn_some_fst, tickTurn_some_snd]
  exact ⟨rfl, rfl⟩

theorem eot_def_up_tick (p : Pokemon) (t : ℤ) (hAlive : 0 < p.hp)
    (h : p.status.def_up = some t) :
    (apply_end_of_turn p).status.def_up = (if 1 < t then some (t - 1) else none) ∧
    (apply_end_of_turn p).status.def_up_amt =
      (if 1 < t then p.status.def_up_amt else none) := by
  rw [apply_end_of_turn, if_neg (not_le.mpr hAlive)]
  obtain ⟨_, _, hq1, hq2, _⟩ := tickPara_mods (tickMods (tickBurn (tickPoison p)))
  rw [hq1, hq2]
  have h1 : (tickMods (tickBurn (tickPoison p))).status.def_up =
      (tickTurn (tickBurn (tickPoison p)).status.def_up
        (tickBurn (tickPoison p)).status.def_up_amt).1 := rfl
  have h2 : (tickMods (tickBurn (tickPoison p))).status.def_up_amt =
      (tickTurn (tickBurn (tickPoison p)).status.def_up
        (tickBurn (tickPoison p)).status.def_up_amt).2 := rfl
  obtain ⟨_, _, hb1, hb2, _⟩ := tickBurn_mods (tickPoison p)
  obtain ⟨_, _, hp1, hp2, _⟩ := tickPoison_mods p
  rw [h1, h2, hb1, hb2, hp1, hp2, h, tickTurn_some_fst, tickTurn_some_snd]
  exact ⟨rfl, rfl⟩

theorem eot_spd_up_tick (p : Pokemon) (t : ℤ) (hAlive : 0 < p.hp)
    (h : p.status.spd_up = some t) :
    (apply_end_of_turn p).status.spd_up = (if 1 < t then some (t - 1) else none) ∧
    (apply_end_of_turn p).status.spd_up_amt =
      (if 1 < t then p.status.spd_up_amt else none) := by
  rw [apply_end_of_turn, if_neg (not_le.mpr hAlive)]
  obtain ⟨_, _, _, _, hq1, hq2, _⟩ := tickPara_mods (tickMods (tickBurn (tickPoison p)))
  rw [hq1, hq2]
  have h1 : (tickMods (tickBurn (tickPoison p))).status.spd_up =
      (tickTurn (tickBurn (tickPoison p)).status.spd_up
        (tickBurn (tickPoison p)).status.spd_up_amt).1 := rfl
  have h2 : (tickMods (tickBurn (tickPoison p))).status.spd_up_amt =
      (tickTurn (tickBurn (tickPoison p)).status.spd_up
        (tickBurn (tickPoison p)).status.spd_up_amt).2 := rfl
  obtain ⟨_, _, _, _, hb1, hb2, _⟩ := tickBurn_mods (tickPoison p)
  obtain ⟨_, _, _, _, hp1, hp2, _⟩ := tickPoison_mods p
  rw [h1, h2, hb1, hb2, hp1, hp2, h, tickTurn_some_fst, tickTurn_some_snd]
  exact ⟨rfl, rfl⟩

theorem eot_spd_down_tick (p : Pokemon) (t : ℤ) (hAlive : 0 < p.hp)
    (h : p.status.spd_down = some t) :
    (apply_end_of_turn p).status.spd_down = (if 1 < t then some (t - 1) else none) ∧
    (apply_end_of_turn p).status.spd_down_amt =
      (if 1 < t then p.status.spd_down_amt else none) := by
  rw [apply_end_of_turn, if_neg (not_le.mpr hAlive)]
  obtain ⟨_, _, _, _, _, _, hq1, hq2, _⟩ := tickPara_mods (tickMods (tickBurn (tickPoison p)))
  rw [hq1, hq2]
  have h1 : (tickMods (tickBurn (tickPoison p))).status.spd_down =
      (tickTurn (tickBurn (tickPoison p)).status.spd_down
        (tickBurn (tickPoison p)).status.spd_down_amt).1 := rfl
  have h2 : (tickMods (tickBurn (tickPoison p))).status.spd_down_amt =
      (tickTurn (tickBurn (tickPoison p)).status.spd_down
        (tickBurn (tickPoison p)).status.spd_down_amt).2 := rfl
  obtain ⟨_, _, _, _, _, _, hb1, hb2, _⟩ := tickBurn_mods (tickPoison p)
  obtain ⟨_, _, _, _, _, _, hp1, hp2, _⟩ := tickPoison_mods p
  rw [h1, h2, hb1, hb2, hp1, hp2, h, tickTurn_some_fst, tickTurn_some_snd]
  exact ⟨rfl, rfl⟩

theorem eot_atk_up_tick (p : Pokemon) (t : ℤ) (hAlive : 0 < p.hp)
    (h : p.status.atk_up = some t) :
    (apply_end_of_turn p).status.atk_up = (if 1 < t then some (t - 1) else none) ∧
    (apply_end_of_turn p).status.atk_up_amt =
      (if 1 < t then p.status.atk_up_amt else none) := by
  rw [apply_end_of_turn, if_neg (not_le.mpr hAlive)]
  obtain ⟨_, _, _, _, _, _, _, _, hq1, hq2⟩ := tickPara_mods (tickMods (tickBurn (tickPoison p)))
  rw [hq1, hq2]
  have h1 : (tickMods (tickBurn (tickPoison p))).status.atk_up =
      (tickTurn (tickBurn (tickPoison p)).status.atk_up
        (tickBurn (tickPoison p)).status.atk_up_amt).1 := rfl
  have h2 : (tickMods (tickBurn (tickPoison p))).status.atk_up_amt =
      (tickTurn (tickBurn (tickPoison p)).status.atk_up
        (tickBurn (tickPoison p)).status.atk_up_amt).2 := rfl
  obtain ⟨_, _, _, _, _, _, _, _, hb1, hb2⟩ := tickBurn_mods (tickPoison p)
  obtain ⟨_, _, _, _, _, _, _, _, hp1, hp2⟩ := tickPoison_mods p
  rw [h1, h2, hb1, hb2, hp1, hp2, h, tickTurn_some_fst, tickTurn_some_snd]
  exact ⟨rfl, rfl⟩

theorem def_lower_stacks (p : Pokemon) (a1 t1 a2 t2 : ℤ) :
    (def_lower (def_lower p a1 t1) a2 t2).status.def_down =
      some (p.status.def_down.getD 0 + t1 + t2) ∧
    (def_lower (def_lower p a1 t1) a2 t2).status.def_down_amt =
      some (p.status.def_down_amt.getD 0 + a1 + a2) :=
  ⟨rfl, rfl⟩

theorem def_boost_stacks (p : Pokemon) (a1 t1 a2 t2 : ℤ) :
    (def_boost (def_boost p a1 t1) a2 t2).status.def_up =
      some (p.status.def_up.getD 0 + t1 + t2) ∧
    (def_boost (def_boost p a1 t1) a2 t2).status.def_up_amt =
      some (p.status.def_up_amt.getD 0 + a1 + a2) :=
  ⟨rfl, rfl⟩

theorem atk_boost_stacks (p : Pokemon) (a1 t1 a2 t2 : ℤ) :
    (atk_boost (atk_boost p a1 t1) a2 t2).status.atk_up =
      some (p.status.atk_up.getD 0 + t1 + t2) ∧
    (atk_boost (atk_boost p a1 t1) a2 t2).status.atk_up_amt =
      some (p.status.atk_up_amt.getD 0 + a1 + a2) :=
  ⟨rfl, rfl⟩

theorem speed_boost_up_stacks (p : Pokemon) (a1 t1 a2 t2 : ℤ) (h1 : 0 < a1) (h2 : 0 < a2) :
    (speed_boost (speed_boost p a1 t1) a2 t2).status.spd_up =
      some (p.status.spd_up.getD 0 + t1 + t2) ∧
    (speed_boost (speed_boost p a1 t1) a2 t2).status.spd_up_amt =
      some (p.status.spd_up_amt.getD 0 + a1 + a2) := by
  simp only [speed_boost, if_pos h1, if_pos h2]
  exact ⟨rfl, rfl⟩

theorem speed_boost_down_stacks (p : Pokemon) (a1 t1 a2 t2 : ℤ) (h1 : a1 ≤ 0) (h2 : a2 ≤ 0) :
    (speed_boost (speed_boost p a1 t1) a2 t2).status.spd_down =
      some (p.status.spd_down.getD 0 + t1 + t2) ∧
    (speed_boost (speed_boost p a1 t1) a2 t2).status.spd_down_amt =
      some (p.status.spd_down_amt.getD 0 + |a1| + |a2|) := by
  simp only [speed_boost, if_neg (not_lt.mpr h1), if_neg (not_lt.mpr h2)]
  exact ⟨rfl, rfl⟩

/-- C1 is false as stated: reapplying poison with (6, 3) on a combatant
already poisoned with (6, 3) leaves `{dmg: 6, turns: 3}`, not the
accumulated `{dmg: 12, turns: 6}` the stacking law demands. -/
theorem poison_restack_counterexample :
    (apply_poison (apply_poison cbroman 6 3) 6 3).status.poison = some (6, 3) ∧
    (apply_poison (apply_poison cbroman 6 3) 6 3).status.poison ≠ some (6 + 6, 3 + 3) := by
  refine ⟨rfl, ?_⟩
  have h : (apply_poison (apply_poison cbroman 6 3) 6 3).status.poison = some (6, 3) := rfl
  rw [h]
  simp

/-- C1 (amended).  The five stat-modifier kinds stack: a second
application adds both the amount and the turns to whatever is already
accumulated (for speed the sign of the amount picks the up/down kind, the
down kind accumulating absolute values).  The timed kinds poison, burn
and paralysis do NOT stack: a reapplication replaces the stored damage
and turns with the new values.  Every kind present with a positive turns
counter is removed by end-of-turn processing exactly when its counter
reaches 0 and never before (for the stat modifiers the amount field is
removed together with the counter). -/
theorem status_stacking_amended :
    (∀ (p : Pokemon) (a1 t1 a2 t2 : ℤ),
        (def_lower (def_lower p a1 t1) a2 t2).status.def_down =
          some (p.status.def_down.getD 0 + t1 + t2) ∧
        (def_lower (def_lower p a1 t1) a2 t2).status.def_down_amt =
          some (p.status.def_down_amt.getD 0 + a1 + a2)) ∧
    (∀ (p : Pokemon) (a1 t1 a2 t2 : ℤ),
        (def_boost (def_boost p a1 t1) a2 t2).status.def_up =
          some (p.status.def_up.getD 0 + t1 + t2) ∧
        (def_boost (def_boost p a1 t1) a2 t2).status.def_up_amt =
          some (p.status.def_up_amt.getD 0 + a1 + a2)) ∧
    (∀ (p : Pokemon) (a1 t1 a2 t2 : ℤ),
        (atk_boost (atk_boost p a1 t1) a2 t2).status.atk_up =
          some (p.status.atk_up.getD 0 + t1 + t2) ∧
        (atk_boost (atk_boost p a1 t1) a2 t2).status.atk_up_amt =
          some (p.status.atk_up_amt.getD 0 + a1 + a2)) ∧
    (∀ (p : Pokemon) (a1 t1 a2 t2 : ℤ), 0 < a1 → 0 < a2 →
        (speed_boost (speed_boost p a1 t1) a2 t2).status.spd_up =
          some (p.status.spd_up.getD 0 + t1 + t2) ∧
        (speed_boost (speed_boost p a1 t1) a2 t2).status.spd_up_amt =
          some (p.status.spd_up_amt.getD 0 + a1 + a2)) ∧
    (∀ (p : Pokemon) (a1 t1 a2 t2 : ℤ), a1 ≤ 0 → a2 ≤ 0 →
        (speed_boost (speed_boost p a1 t1) a2 t2).status.spd_down =
          some (p.status.spd_down.getD 0 + t1 + t2) ∧
        (speed_boost (speed_boost p a1 t1) a2 t2).status.spd_down_amt =
          some (p.status.spd_down_amt.getD 0 + |a1| + |a2|)) ∧
    (∀ (p : Pokemon) (d1 t1 d2 t2 : ℤ),
        (apply_poison (apply_poison p d1 t1) d2 t2).status.poison = some (d2, t2)) ∧
    (∀ (p : Pokemon) (d1 t1 d2 t2 : ℤ),
        (apply_burn (apply_burn p d1 t1) d2 t2).status.burn = some (d2, t2)) ∧
    (∀ (p : Pokemon) (t1 t2 : ℤ),
        (apply_paralysis (apply_paralysis p t1) t2).status.paralysis = some t2) ∧
    (∀ (p : Pokemon) (d t : ℤ), 0 < p.hp → p.status.poison = some (d, t) → 0 < t →
        (apply_end_of_turn p).status.poison = (if 1 < t then some (d, t - 1) else none)) ∧
    (∀ (p : Pokemon) (d t : ℤ), 0 < p.hp → p.status.burn = some (d, t) → 0 < t →
        (apply_end_of_turn p).status.burn = (if 1 < t then some (d, t - 1) else none)) ∧
    (∀ (p : Pokemon) (t : ℤ), 0 < p.hp → p.status.paralysis = some t → 0 < t →
        (apply_end_of_turn p).status.paralysis = (if 1 < t then some (t - 1) else none)) ∧
    (∀ (p : Pokemon) (t : ℤ), 0 < p.hp → p.status.def_down = some t →
        (apply_end_of_turn p).status.def_down = (if 1 < t then some (t - 1) else none) ∧
        (apply_end_of_turn p).status.def_down_amt =
          (if 1 < t then p.status.def_down_amt else none)) ∧
    (∀ (p : Pokemon) (t : ℤ), 0 < p.hp → p.status.def_up = some t →
        (apply_end_of_turn p).status.def_up = (if 1 < t then some (t - 1) else none) ∧
        (apply_end_of_turn p).status.def_up_amt =
          (if 1 < t then p.status.def_up_amt else none)) ∧
    (∀ (p : Pokemon) (t : ℤ), 0 < p.hp → p.status.spd_up = some t →
        (apply_end_of_turn p).status.spd_up = (if 1 < t then some (t - 1) else none) ∧
        (apply_end_of_turn p).status.spd_up_amt =
          (if 1 < t then p.status.spd_up_amt else none)) ∧
    (∀ (p : Pokemon) (t : ℤ), 0 < p.hp → p.status.spd_down = some t →
        (apply_end_of_turn p).status.spd_down = (if 1 < t then some (t - 1) else none) ∧
        (apply_end_of_turn p).status.spd_down_amt =
          (if 1 < t then p.status.spd_down_amt else none)) ∧
    (∀ (p : Pokemon) (t : ℤ), 0 < p.hp → p.status.atk_up = some t →
        (apply_end_of_turn p).status.atk_up = (if 1 < t then some (t - 1) else none) ∧
        (apply_end_of_turn p).status.atk_up_amt =
          (if 1 < t then p.status.atk_up_amt else none)) := by
  refine ⟨def_lower_stacks, def_boost_stacks, atk_boost_stacks,
    speed_boost_up_stacks, speed_boost_down_stacks,
    fun p d1 t1 d2 t2 => rfl, fun p d1 t1 d2 t2 => rfl, fun p t1 t2 => rfl,
    eot_poison_tick, eot_burn_tick, eot_para_tick,
    eot_def_down_tick, eot_def_up_tick, eot_spd_up_tick,
    eot_spd_down_tick, eot_atk_up_tick⟩

theorem status_stacking_amended_witness :
    ((speed_boost (speed_boost cbroman 1 3) 2 4).status.spd_up =
        some (cbroman.status.spd_up.getD 0 + 3 + 4) ∧
     (speed_boost (speed_boost cbroman 1 3) 2 4).status.spd_up_amt =
        some (cbroman.status.spd_up_amt.getD 0 + 1 + 2)) ∧
    ((speed_boost (speed_boost cbroman (-1) 3) (-2) 4).status.spd_down =
        some (cbroman.status.spd_down.getD 0 + 3 + 4) ∧
     (speed_boost (speed_boost cbroman (-1) 3) (-2) 4).status.spd_down_amt =
        some (cbroman.status.spd_down_amt.getD 0 + |(-1 : ℤ)| + |(-2 : ℤ)|)) ∧
    ((apply_end_of_turn (apply_poison cbroman 6 3)).status.poison =
        (if 1 < (3 : ℤ) then some (6, 3 - 1) else none)) ∧
    ((apply_end_of_turn (apply_burn cbroman 8 1)).status.burn =
        (if 1 < (1 : ℤ) then some (8, 1 - 1) else none)) ∧
    ((apply_end_of_turn (apply_paralysis cbroman 4)).status.paralysis =
        (if 1 < (4 : ℤ) then some (4 - 1) else none)) ∧
    ((apply_end_of_turn (def_lower cbroman 2 3)).status.def_down =
        (if 1 < (0 + 3 : ℤ) then some (0 + 3 - 1) else none)) ∧
    ((apply_end_of_turn (def_boost cbroman 2 3)).status.def_up =
        (if 1 < (0 + 3 : ℤ) then some (0 + 3 - 1) else none)) ∧
    ((apply_end_of_turn (speed_boost cbroman 1 3)).status.spd_up =
        (if 1 < (0 + 3 : ℤ) then some (0 + 3 - 1) else none)) ∧
    ((apply_end_of_turn (speed_boost cbroman (-1) 3)).status.spd_down =
        (if 1 < (0 + 3 : ℤ) then some (0 + 3 - 1) else none)) ∧
    ((apply_end_of_turn (atk_boost cbroman 3 1)).status.atk_up =
        (if 1 < (0 + 1 : ℤ) then some (0 + 1 - 1) else none)) :=
  ⟨status_stacking_amended.2.2.2.1 cbroman 1 3 2 4 (by norm_num) (by norm_num),
   status_stacking_amended.2.2.2.2.1 cbroman (-1) 3 (-2) 4 (by norm_num) (by norm_num),
   status_stacking_amended.2.2.2.2.2.2.2.2.1 (apply_poison cbroman 6 3) 6 3
     (by norm_num [apply_poison, cbroman]) rfl (by norm_num),
   status_stacking_amended.2.2.2.2.2.2.2.2.2.1 (apply_burn cbroman 8 1) 8 1
     (by norm_num [apply_burn, cbroman]) rfl (by norm_num),
   status_stacking_amended.2.2.2.2.2.2.2.2.2.2.1 (apply_paralysis cbroman 4) 4
     (by norm_num [apply_paralysis, cbroman]) rfl (by norm_num),
   (status_stacking_amended.2.2.2.2.2.2.2.2.2.2.2.1 (def_lower cbroman 2 3) (0 + 3)
     (by norm_num [def_lower, cbroman]) rfl).1,
   (status_stacking_amended.2.2.2.2.2.2.2.2.2.2.2.2.1 (def_boost cbroman 2 3) (0 + 3)
     (by norm_num [def_boost, cbroman]) rfl).1,
   (status_stacking_amended.2.2.2.2.2.2.2.2.2.2.2.2.2.1 (speed_boost cbroman 1 3) (0 + 3)
     (by norm_num [speed_boost, cbroman]) (by norm_num [speed_boost, cbroman])).1,
   (status_stacking_amended.2.2.2.2.2.2.2.2.2.2.2.2.2.2.1 (speed_boost cbroman (-1) 3) (0 + 3)
     (by norm_num [speed_boost, cbroman]) (by norm_num [speed_boost, cbroman])).1,
   (status_stacking_amended.2.2.2.2.2.2.2.2.2.2.2.2.2.2.2 (atk_boost cbroman 3 1) (0 + 1)
     (by norm_num [atk_boost, cbroman]) rfl).1⟩

theorem ite_add_right (c : Prop) [Decidable c] (A B : ℤ) :
    (if c then A + B else A) = A + (if c then B else 0) := by
  split <;> simp

theorem pyTrunc_floor_crit (q : ℚ) :
    pyTrunc ((⌊max 1 q⌋ : ℤ) * (18 / 10 : ℚ)) = ⌊((⌊max 1 q⌋ : ℤ) : ℚ) * (18 / 10 : ℚ)⌋ := by
  apply pyTrunc_eq_floor
  have h1 : (1 : ℤ) ≤ ⌊max 1 q⌋ := Int.le_floor.mpr (by exact_mod_cast le_max_left 1 q)
  have h2 : (1 : ℚ) ≤ ((⌊max 1 q⌋ : ℤ) : ℚ) := by exact_mod_cast h1
  nlinarith

/-- C4 is false as stated: on a defender whose active defense-down amount
exceeds its defense while a defense-up modifier is also active, the code
clamps before adding the defense-up bonus (effective defense 6, damage
166), while the claim's net-then-clamp formula yields effective defense 1
and damage 1000. -/
theorem damage_formula_clamp_counterexample :
    (compute_damage clampAttacker clampDefender clampMove 1 false).1 = 166 ∧
    specDamage clampAttacker clampDefender clampMove 1 false = 1000 ∧
    (compute_damage clampAttacker clampDefender clampMove 1 false).1 ≠
      specDamage clampAttacker clampDefender clampMove 1 false := by
  have h1 : (compute_damage clampAttacker clampDefender clampMove 1 false).1 = 166 := by
    simp only [compute_damage, clampAttacker, clampDefender, clampMove, pyTrunc]
    norm_num [max_def]
  have h2 : specDamage clampAttacker clampDefender clampMove 1 false = 1000 := by
    simp only [specDamage, clampAttacker, clampDefender, clampMove]
    norm_num [max_def]
  refine ⟨h1, h2, ?_⟩
  rw [h1, h2]
  norm_num

/-- C4 (amended).  The computed formula damage follows the spec formula
with one correction: the clamp of effective defense to at least 1 is
applied to the defense-down subtraction before the defense-up bonus is
added (and each modifier amount counts only while its turn counter is
positive).  The concrete scenario holds: attack 1824 against defense 1102
at equal level with power 40, variance 1.0 and no critical gives 66. -/
theorem compute_damage_matches_formula :
    (∀ (a d : Pokemon) (m : Move) (v : ℚ) (c : Bool), 0 < m.power →
        (compute_damage a d m v c).1 = specDamageAmended a d m v c) ∧
    (compute_damage cbroman cbroman scenarioMove 1 false).1 = 66 := by
  constructor
  · intro a d m v c h
    cases c
    · simp only [compute_damage, specDamageAmended, if_neg (not_le.mpr h), ite_add_right,
        Bool.false_eq_true, if_false]
      rw [pyTrunc_eq_floor (le_trans zero_le_one (le_max_left 1 _))]
    · simp only [compute_damage, specDamageAmended, if_neg (not_le.mpr h), ite_add_right,
        if_true]
      rw [pyTrunc_eq_floor (le_trans zero_le_one (le_max_left 1 _)), pyTrunc_floor_crit]
  · simp only [compute_damage, cbroman, scenarioMove, pyTrunc]
    norm_num [max_def]

theorem compute_damage_matches_formula_witness :
    (compute_damage hexaBreak cbroman overflowStrike (9 / 10) true).1 =
      specDamageAmended hexaBreak cbroman overflowStrike (9 / 10) true :=
  compute_damage_matches_formula.1 hexaBreak cbroman overflowStrike (9 / 10) true
    (by norm_num [overflowStrike])

/-- C2 (code bug).  For every percent-of-max-HP move the repository
actually defines, the hook is a plain lambda, so `perform_move` applies
the percent damage as a call-time side effect and then still applies the
formula damage: HexaBreak's Overflow Strike (power 180, 36%) against a
fresh Cbroman leaves 803 HP — the 632 percent damage plus 323 formula
damage — while the claimed replacement semantics (implemented only in the
unreachable tuple branch, whose comment says "Don't apply normal damage
for percent-based moves") predicts 1126 HP. -/
theorem percent_damage_additive_at_overflow_strike :
    (perform_move rollsNeutral hexaBreak cbroman overflowStrike).2.hp = 803 ∧
    max 0 (cbroman.hp - percentDmg cbroman.max_hp 36) = 1126 ∧
    (perform_move rollsNeutral hexaBreak cbroman
        { overflowStrike with effect := some (.tuplePercentMaxHp 36) }).2.hp = 1126 := by
  refine ⟨?_, ?_, ?_⟩
  · simp only [perform_move, compute_damage, runFxCall, applyAt, deal_percent_max_hp,
      percentDmg, pyTrunc, rollsNeutral, hexaBreak, cbroman, overflowStrike]
    norm_num [max_def]
    rw [if_neg (by decide : ¬("physical" = "status"))]
  · simp only [percentDmg, pyTrunc, cbroman]
    norm_num [max_def]
  · simp only [perform_move, compute_damage, runFxCall, applyAt, deal_percent_max_hp,
      percentDmg, pyTrunc, rollsNeutral, hexaBreak, cbroman, overflowStrike]
    norm_num [max_def]

theorem bounds_hp_sub (p : Pokemon) (dmg : ℤ) (hd : 0 ≤ dmg) (hb : BoundsOK p) :
    BoundsOK { p with hp := max 0 (p.hp - dmg) } := by
  unfold BoundsOK at *
  dsimp only
  omega

theorem bounds_heal (p : Pokemon) (amount : ℤ) (h : 0 ≤ amount) (hb : BoundsOK p) :
    BoundsOK (heal p amount) := by
  unfold BoundsOK heal at *
  dsimp only
  omega

theorem percentDmg_nonneg (maxhp percent : ℤ) (h1 : 0 ≤ maxhp) (h2 : 0 ≤ percent) :
    0 ≤ percentDmg maxhp percent := by
  apply pyTrunc_nonneg
  have hm : (0 : ℚ) ≤ (maxhp : ℚ) := by exact_mod_cast h1
  have hc : (0 : ℚ) ≤ (percent : ℚ) := by exact_mod_cast h2
  positivity

theorem bounds_percent (p : Pokemon) (percent : ℤ) (hpct : 0 ≤ percent) (hb : BoundsOK p) :
    BoundsOK (deal_percent_max_hp p percent) :=
  bounds_hp_sub p (percentDmg p.max_hp percent)
    (percentDmg_nonneg p.max_hp percent (le_trans hb.1 hb.2.1) hpct) hb

theorem bounds_speed_boost (p : Pokemon) (amount turns : ℤ) (hb : BoundsOK p) :
    BoundsOK (speed_boost p amount turns) := by
  rw [speed_boost]
  split
  · exact hb
  · exact hb

theorem bounds_runFxCall (fx : Effect) (a d : Pokemon) (hfx : WFEffect fx)
    (ha : BoundsOK a) (hd : BoundsOK d) :
    BoundsOK (runFxCall fx a d).1 ∧ BoundsOK (runFxCall fx a d).2 := by
  cases fx with
  | defLowerFx t amount turns => cases t <;> exact ⟨ha, hd⟩
  | defBoostFx t amount turns => cases t <;> exact ⟨ha, hd⟩
  | atkBoostFx t amount turns => cases t <;> exact ⟨ha, hd⟩
  | speedBoostFx t amount turns =>
      cases t
      · exact ⟨bounds_speed_boost a amount turns ha, hd⟩
      · exact ⟨ha, bounds_speed_boost d amount turns hd⟩
  | poisonFx t dmg turns => cases t <;> exact ⟨ha, hd⟩
  | burnFx t dmg turns => cases t <;> exact ⟨ha, hd⟩
  | paralysisFx t turns => cases t <;> exact ⟨ha, hd⟩
  | healFx t amount =>
      cases t
      · exact ⟨bounds_heal a amount hfx ha, hd⟩
      · exact ⟨ha, bounds_heal d amount hfx hd⟩
  | percentMaxHpFx t percent =>
      cases t
      · exact ⟨bounds_percent a percent hfx ha, hd⟩
      · exact ⟨ha, bounds_percent d percent hfx hd⟩
  | doubleHitFx => exact ⟨ha, hd⟩
  | bonusDamageFx threshold => exact ⟨ha, hd⟩
  | tupleDefLower t amount turns => exact ⟨ha, hd⟩
  | tuplePercentMaxHp percent => exact ⟨ha, hd⟩
  | tupleDoubleHit => exact ⟨ha, hd⟩
  | tupleBonusDamage threshold => exact ⟨ha, hd⟩

theorem bounds_spend (a : Pokemon) (cost : ℤ) (hc : 0 ≤ cost) (ha : BoundsOK a) :
    BoundsOK { a with energy := max 0 (a.energy - cost) } := by
  unfold BoundsOK at *
  dsimp only
  omega

theorem bounds_regain (p : Pokemon) (n : ℤ) (hn : 0 ≤ n) (hb : BoundsOK p) :
    BoundsOK (regainEnergy p n) := by
  unfold BoundsOK regainEnergy at *
  dsimp only
  omega

theorem bounds_ite_dmg (y : Pokemon) (dmg : ℤ) (hy : BoundsOK y) :
    BoundsOK (if 0 < dmg then { y with hp := max 0 (y.hp - dmg) } else y) := by
  split
  · rename_i h
    exact bounds_hp_sub y dmg (le_of_lt h) hy
  · exact hy

theorem perform_move_bounds (rolls : Rolls) (a d : Pokemon) (m : Move)
    (hm : WFMove m) (ha : BoundsOK a) (hd : BoundsOK d) :
    BoundsOK (perform_move rolls a d m).1 ∧ BoundsOK (perform_move rolls a d m).2 := by
  obtain ⟨hc, hfx⟩ := hm
  have ha2 : BoundsOK { a with energy := max 0 (a.energy - m.energy_cost) } :=
    bounds_spend a m.energy_cost hc ha
  rw [perform_move]
  split
  · exact ⟨ha, hd⟩
  · split
    · exact ⟨ha, hd⟩
    · split
      · cases hme : m.effect with
        | none => exact ⟨ha2, hd⟩
        | some fx =>
            have hbase := bounds_runFxCall fx
              { a with energy := max 0 (a.energy - m.energy_cost) } d (hfx fx hme) ha2 hd
            cases fx
            case tupleDefLower t amount turns =>
              cases t
              · exact ⟨hbase.1, hbase.2⟩
              · exact ⟨hbase.1, hbase.2⟩
            case tuplePercentMaxHp percent =>
              exact ⟨hbase.1, bounds_percent _ percent (hfx _ hme) hbase.2⟩
            all_goals exact hbase
      · cases hme : m.effect with
        | none =>
            dsimp only
            exact ⟨ha2, bounds_ite_dmg d _ hd⟩
        | some fx =>
            have hbase := bounds_runFxCall fx
              { a with energy := max 0 (a.energy - m.energy_cost) } d (hfx fx hme) ha2 hd
            cases fx
            case tupleDoubleHit =>
              dsimp only
              split
              · exact ⟨hbase.1, bounds_ite_dmg _ _ (bounds_hp_sub _ _
                  (compute_damage_nonneg _ _ _ _ _) hbase.2)⟩
              · exact ⟨hbase.1, bounds_ite_dmg _ _ hbase.2⟩
            case tupleBonusDamage threshold =>
              dsimp only
              split
              · exact ⟨hbase.1, bounds_ite_dmg _ _ hbase.2⟩
              · exact ⟨hbase.1, bounds_ite_dmg _ _ hbase.2⟩
            case tuplePercentMaxHp percent =>
              exact ⟨hbase.1, bounds_ite_dmg _ _ (bounds_percent _ percent (hfx _ hme) hbase.2)⟩
            all_goals exact ⟨hbase.1, bounds_ite_dmg _ _ hbase.2⟩

theorem apply_end_of_turn_bounds (p : Pokemon) (hw : WFStatus p.status) (hb : BoundsOK p) :
    BoundsOK (apply_end_of_turn p) := by
  rw [apply_end_of_turn]
  split
  · exact hb
  · have h1 : BoundsOK (tickPoison p) := by
      rw [tickPoison]
      cases hpo : p.status.poison with
      | none => exact hb
      | some v =>
          obtain ⟨dmg, t⟩ := v
          dsimp only
          split
          · have hdmg : 0 ≤ dmg := hw.1 dmg t hpo
            unfold BoundsOK at *
            dsimp only
            omega
          · exact hb
    have h2 : BoundsOK (tickBurn (tickPoison p)) := by
      rw [tickBurn]
      cases hbu : (tickPoison p).status.burn with
      | none => exact h1
      | some v =>
          obtain ⟨dmg, t⟩ := v
          rw [tickPoison_burn] at hbu
          dsimp only
          split
          · have hdmg : 0 ≤ dmg := hw.2 dmg t hbu
            unfold BoundsOK at *
            dsimp only
            omega
          · exact h1
    have h3 : BoundsOK (tickMods (tickBurn (tickPoison p))) := h2
    rw [tickPara]
    cases hpa : (tickMods (tickBurn (tickPoison p))).status.paralysis with
    | none => exact h3
    | some t =>
        dsimp only
        split
        · exact h3
        · exact h3

/-- C5.  Every resolution step keeps every combatant inside its bounds:
`perform_move` (for a move with a non-negative energy cost and
non-negative effect payloads, as all roster moves have), `apply_end_of_turn`
(for non-negative damage-over-time payloads, as all roster hooks install)
and every energy-regain step (+3 end of turn, +5 pass, +8 switch-in)
preserve `0 ≤ hp ≤ max_hp` and `0 ≤ energy ≤ energy_max`. -/
theorem resolution_steps_preserve_bounds :
    (∀ (rolls : Rolls) (a d : Pokemon) (m : Move), WFMove m → BoundsOK a → BoundsOK d →
        BoundsOK (perform_move rolls a d m).1 ∧ BoundsOK (perform_move rolls a d m).2) ∧
    (∀ p : Pokemon, WFStatus p.status → BoundsOK p → BoundsOK (apply_end_of_turn p)) ∧
    (∀ (p : Pokemon) (n : ℤ), 0 ≤ n → BoundsOK p → BoundsOK (regainEnergy p n)) :=
  ⟨perform_move_bounds, apply_end_of_turn_bounds, bounds_regain⟩

theorem resolution_steps_preserve_bounds_witness :
    (BoundsOK (perform_move rollsNeutral hexaBreak cbroman overflowStrike).1 ∧
      BoundsOK (perform_move rollsNeutral hexaBreak cbroman overflowStrike).2) ∧
    BoundsOK (apply_end_of_turn (apply_poison cbroman 6 3)) ∧
    BoundsOK (regainEnergy cbroman 3) :=
  ⟨resolution_steps_preserve_bounds.1 rollsNeutral hexaBreak cbroman overflowStrike
      ⟨by norm_num [overflowStrike], by
        intro fx h
        injection h with h2
        subst h2
        exact (by norm_num : (0 : ℤ) ≤ 36)⟩
      (by norm_num [BoundsOK, hexaBreak]) (by norm_num [BoundsOK, cbroman]),
   resolution_steps_preserve_bounds.2.1 (apply_poison cbroman 6 3)
      ⟨fun d t h => by
        injection h with h2
        injection h2 with h3 h4
        omega,
       fun d t h => Option.noConfusion h⟩
      (by norm_num [BoundsOK, apply_poison, cbroman]),
   resolution_steps_preserve_bounds.2.2 cbroman 3 (by norm_num)
      (by norm_num [BoundsOK, cbroman])⟩

theorem switch_grants_energy_only_witness :
    (switchInBoost [cbroman, hexaBreak] 1)[1]? =
      some { hexaBreak with
             energy := min hexaBreak.energy_max (hexaBreak.energy + 8) } ∧
    (∀ j, j ≠ 1 → (switchInBoost [cbroman, hexaBreak] 1)[j]? = [cbroman, hexaBreak][j]?) ∧
    (switchInBoost [cbroman, hexaBreak] 1).length = [cbroman, hexaBreak].length :=
  switch_grants_energy_only [cbroman, hexaBreak] 1 hexaBreak rfl

end BrokenMons
